import Mathlib

/-!
Shallow embedding of the healthnotes meeting-bot gateway
(`src/deploy/modal/bot_manager.py`, `src/deploy/modal/gateway.py`,
`src/deploy/modal/app.py`) and proofs about its instance registry, its
gateway endpoints, and the remote launcher's health-poll loop.

Modelling conventions:
- Python dicts become insertion-ordered association lists with unique keys
  (`dictGet`/`dictSet`/`dictDelete` mirror `d[k]`, `d[k] = v`, `del d[k]`;
  a dict literal with `**extra` last becomes `dictMerge`).
- `datetime.utcnow()` becomes an explicit `now : Nat` argument (seconds);
  `datetime.timestamp()` comparisons are carried out in `Int` because the
  cleanup cutoff `now - max_age_hours * 3600` can go below zero.
- JSON-compatible parameter values become the closed `Value` type.
- `str(uuid.uuid4())` becomes a fresh-identifier counter held in the gateway
  state, per the spec's assumption that identifier generation is
  collision-free; identifiers are opaque, so `Nat` stands in for the string.
- Network and subprocess effects of the remote launcher become an explicit
  environment `RunEnv` recording the outcome of each health-poll attempt and
  of the join call; raising/catching becomes `Except`.
-/

namespace MeetingBot

/-- A JSON-compatible parameter value (meeting params are string-keyed maps of
such values). -/
inductive Value where
  | str (s : String)
  | bool (b : Bool)
  | int (n : Int)
  | null
deriving DecidableEq, Repr

/-- Python `dict[str, Any]` for meeting parameters: an insertion-ordered
association list. -/
abbrev Params := List (String × Value)

/-- Python `d.get(k)` / `d[k]` on an association-list dict: value of the first
binding of `k`. -/
def dictGet {κ α : Type} [DecidableEq κ] : List (κ × α) → κ → Option α
  | [], _ => none
  | (k', v) :: rest, k => if k' = k then some v else dictGet rest k

/-- Python `d[k] = v`: replace the binding of `k` in place if present,
otherwise append it. -/
def dictSet {κ α : Type} [DecidableEq κ] : List (κ × α) → κ → α → List (κ × α)
  | [], k, v => [(k, v)]
  | (k', v') :: rest, k, v =>
    if k' = k then (k, v) :: rest else (k', v') :: dictSet rest k v

/-- Python `del d[k]`. -/
def dictDelete {κ α : Type} [DecidableEq κ] (d : List (κ × α)) (k : κ) :
    List (κ × α) :=
  d.filter (fun p => decide (p.1 ≠ k))

/-- Python `k in d`. -/
def dictContains {κ α : Type} [DecidableEq κ] (d : List (κ × α)) (k : κ) :
    Bool :=
  d.any (fun p => decide (p.1 = k))

/-- Python `{**d, **extra}`: entries of `extra` are written over `d` in order,
so a key present in both takes its value from `extra`. -/
def dictMerge {κ α : Type} [DecidableEq κ] (d extra : List (κ × α)) :
    List (κ × α) :=
  extra.foldl (fun acc p => dictSet acc p.1 p.2) d

/-! ## Instance registry (`bot_manager.py`) -/

/-- Instance identifiers: `str(uuid.uuid4())` modelled as an opaque fresh
number drawn from the gateway's counter (the spec assumes identifier
generation is collision-free). -/
abbrev InstanceId := Nat

/-- `BotInstance` dataclass: one tracked attempt to join a meeting. -/
structure BotInstance where
  instance_id : InstanceId
  meeting_params : Params
  status : String
  started_at : Nat
  completed_at : Option Nat := none
  error_message : Option String := none
deriving DecidableEq, Repr

/-- `BotManager`: the in-memory registry `self.instances`. -/
structure BotManager where
  instances : List (InstanceId × BotInstance)
deriving DecidableEq, Repr

/-- `BotManager.__init__`. -/
def botManagerInit : BotManager := { instances := [] }

/-- `BotManager.create_instance`: store a new record with status `"starting"`
under a freshly generated id.  The id and the current time are explicit
arguments (`uuid.uuid4()` and `datetime.utcnow()` in the source). -/
def BotManager.create_instance (m : BotManager) (meeting_params : Params)
    (instance_id : InstanceId) (now : Nat) : BotManager × InstanceId :=
  let inst : BotInstance :=
    { instance_id := instance_id
      meeting_params := meeting_params
      status := "starting"
      started_at := now }
  ({ instances := dictSet m.instances instance_id inst }, instance_id)

/-- `BotManager.get_instance`: `self.instances.get(instance_id)`. -/
def BotManager.get_instance (m : BotManager) (instance_id : InstanceId) :
    Option BotInstance :=
  dictGet m.instances instance_id

/-- The three mutation statements of `update_instance_status` applied to one
record: overwrite the status, stamp `completed_at` when the new status is
`"completed"` or `"failed"` (otherwise leave it as it was), and overwrite
`error_message` only when a truthy (non-`None`, non-empty) value is
supplied. -/
def updatedInstance (inst : BotInstance) (status : String)
    (error_message : Option String) (now : Nat) : BotInstance :=
  { inst with
    status := status
    completed_at :=
      if ["completed", "failed"].contains status then some now
      else inst.completed_at
    error_message :=
      match error_message with
      | some msg => if msg ≠ "" then some msg else inst.error_message
      | none => inst.error_message }

/-- `BotManager.update_instance_status`: if the id is known, mutate the
record in place via `updatedInstance`.  Unknown ids are silently ignored. -/
def BotManager.update_instance_status (m : BotManager)
    (instance_id : InstanceId) (status : String)
    (error_message : Option String) (now : Nat) : BotManager :=
  match dictGet m.instances instance_id with
  | none => m
  | some inst =>
    { instances :=
        dictSet m.instances instance_id
          (updatedInstance inst status error_message now) }

/-- `BotManager.list_instances`: snapshot of all records keyed by id
(`asdict` is the identity at this level of modelling). -/
def BotManager.list_instances (m : BotManager) :
    List (InstanceId × BotInstance) :=
  m.instances

/-- A record is removed by the cleanup sweep when its `started_at` timestamp
is strictly below `now - max_age_hours * 3600` and its status is terminal. -/
def isRemovable (inst : BotInstance) (max_age_hours : Nat) (now : Nat) :
    Bool :=
  decide ((inst.started_at : Int) < (now : Int) - (max_age_hours : Int) * 3600)
    && ["completed", "failed"].contains inst.status

/-- `BotManager.cleanup_old_instances`: collect the ids of the old terminal
records, then delete them one by one. -/
def BotManager.cleanup_old_instances (m : BotManager) (max_age_hours : Nat)
    (now : Nat) : BotManager :=
  let to_remove :=
    (m.instances.filter (fun p => isRemovable p.2 max_age_hours now)).map
      (fun p => p.1)
  { instances := to_remove.foldl (fun acc id => dictDelete acc id) m.instances }

/-! ## Remote launcher (`run_meeting_bot` in `app.py` / `gateway.py`) -/

/-- Outcome of one `requests.get("http://localhost:4000/health", timeout=5)`
attempt: either the request raised a `RequestException`, or it returned an
HTTP response with the given status code. -/
inductive HealthOutcome where
  | error
  | status (code : Nat)
deriving DecidableEq, Repr

/-- `response.status_code == 200`, the only condition on which the poll loop
breaks. -/
def isHealthy : HealthOutcome → Bool
  | HealthOutcome.error => false
  | HealthOutcome.status code => code == 200

/-- The external world as seen by one `run_meeting_bot` call: the outcome of
the i-th health attempt, the response to the `POST /api/join-meeting` call,
and the (already tail-truncated) output of the external process. -/
structure RunEnv where
  health : Nat → HealthOutcome
  joinStatus : Nat
  joinBody : String
  stdoutTail : String
  stderrTail : Option String

/-- One observable event of the health-poll loop: an attempt with its
outcome, or a `time.sleep` of the given number of seconds. -/
inductive PollEvent where
  | attempt (outcome : HealthOutcome)
  | sleep (seconds : Nat)
deriving DecidableEq, Repr

/-- The health-poll loop `for _ in range(max_retries): ...` of
`run_meeting_bot`, as the trace of events it produces together with whether
it broke out on a 200 response.  A request error is followed by
`time.sleep(1)`; a non-200 response falls through to the next iteration with
no sleep; a 200 response breaks immediately. -/
def healthPollTrace (health : Nat → HealthOutcome) :
    Nat → Nat → List PollEvent × Bool
  | 0, _ => ([], false)
  | remaining + 1, i =>
    match health i with
    | HealthOutcome.error =>
      let rest := healthPollTrace health remaining (i + 1)
      (PollEvent.attempt HealthOutcome.error :: PollEvent.sleep 1 :: rest.1,
       rest.2)
    | HealthOutcome.status code =>
      if code == 200 then ([PollEvent.attempt (HealthOutcome.status code)], true)
      else
        let rest := healthPollTrace health remaining (i + 1)
        (PollEvent.attempt (HealthOutcome.status code) :: rest.1, rest.2)

/-- Number of health attempts in a poll trace. -/
def attemptCount (trace : List PollEvent) : Nat :=
  trace.countP (fun e => match e with
    | PollEvent.attempt _ => true
    | PollEvent.sleep _ => false)

/-- Number of sleep events in a poll trace. -/
def sleepCount (trace : List PollEvent) : Nat :=
  trace.countP (fun e => match e with
    | PollEvent.attempt _ => false
    | PollEvent.sleep _ => true)

/-- The result dict returned by `run_meeting_bot`: always a `status` and a
`message`; `stdout`/`stderr` keys only on the success path. -/
structure RunResult where
  status : String
  message : String
  stdout : Option String := none
  stderr : Option String := none
deriving DecidableEq, Repr

/-- `run_meeting_bot`: spawn the external process, poll its health endpoint
up to 30 times, forward the parameters to its join endpoint, wait for exit.
Every failure is caught by the outer `except` and turned into an error
result, so the function is total and never raises to the platform. -/
def run_meeting_bot (env : RunEnv) : RunResult :=
  let (_, healthOk) := healthPollTrace env.health 30 0
  if !healthOk then
    { status := "error"
      message := "Meeting bot failed: Failed to start meeting bot application" }
  else if env.joinStatus ≠ 200 then
    { status := "error"
      message := "Meeting bot failed: Failed to join meeting: " ++ env.joinBody }
  else
    { status := "completed"
      message := "Meeting bot finished successfully"
      stdout := some env.stdoutTail
      stderr := env.stderrTail }

/-- The sleep discipline the poll loop actually follows: a `time.sleep(1)`
comes right after each attempt whose request errored (the `except` branch),
and nowhere else — in particular an attempt that returned a non-success
status code is followed immediately by the next event with no sleep. -/
def wellSlept : List PollEvent → Bool
  | [] => true
  | PollEvent.sleep _ :: _ => false
  | PollEvent.attempt HealthOutcome.error :: rest =>
    match rest with
    | PollEvent.sleep s :: rest' => s == 1 && wellSlept rest'
    | _ => false
  | PollEvent.attempt (HealthOutcome.status _) :: rest =>
    match rest with
    | PollEvent.sleep _ :: _ => false
    | _ => wellSlept rest


/-! ## Gateway (`gateway.py`) -/

/-- `JoinMeetingRequest` pydantic model, with its defaults. -/
structure JoinMeetingRequest where
  meeting_url : String
  bot_name : String := "Meeting Bot"
  recording_enabled : Bool := true
  duration_minutes : Int := 60
  additional_params : Params := []
deriving DecidableEq, Repr

/-- `BotResponse` pydantic model. -/
structure BotResponse where
  instance_id : InstanceId
  status : String
  message : String
deriving DecidableEq, Repr

/-- `BotStatusResponse` pydantic model (timestamps kept as numbers rather
than ISO strings). -/
structure BotStatusResponse where
  instance_id : InstanceId
  status : String
  started_at : Nat
  completed_at : Option Nat := none
  error_message : Option String := none
deriving DecidableEq, Repr

/-- The `meeting_params` dict literal built by `join_meeting`: the four fixed
fields first, then `**request.additional_params` written over them. -/
def prepareMeetingParams (request : JoinMeetingRequest) : Params :=
  dictMerge
    [("meeting_url", Value.str request.meeting_url),
     ("bot_name", Value.str request.bot_name),
     ("recording_enabled", Value.bool request.recording_enabled),
     ("duration_minutes", Value.int request.duration_minutes)]
    request.additional_params

/-- Progress of one `start_bot_async` background task: created but not yet
run, suspended on the `await` of the remote call, or finished. -/
inductive TaskPhase where
  | scheduled
  | awaitingRemote
  | done
deriving DecidableEq, Repr

/-- The gateway process state: the global `bot_manager`, the uuid supply, the
ghost list of every instance id ever returned by `join_meeting`, and the
background tasks spawned by `asyncio.create_task`. -/
structure GatewayState where
  bot_manager : BotManager
  nextUuid : Nat
  issued : List InstanceId
  tasks : List (InstanceId × TaskPhase)
deriving Repr

/-- Gateway state at process start. -/
def gatewayInit : GatewayState :=
  { bot_manager := botManagerInit, nextUuid := 0, issued := [], tasks := [] }

/-- `POST /bot/join` (`join_meeting`): build the merged parameter map, create
the registry record, schedule the launch task, and answer immediately with
status `"starting"`. -/
def joinMeeting (s : GatewayState) (request : JoinMeetingRequest)
    (now : Nat) : BotResponse × GatewayState :=
  let meeting_params := prepareMeetingParams request
  let instance_id := s.nextUuid
  let m := (s.bot_manager.create_instance meeting_params instance_id now).1
  ({ instance_id := instance_id
     status := "starting"
     message := "Meeting bot is being started" },
   { bot_manager := m
     nextUuid := s.nextUuid + 1
     issued := s.issued ++ [instance_id]
     tasks := dictSet s.tasks instance_id TaskPhase.scheduled })

/-- `GET /bot/{instance_id}/status` (`get_bot_status`): 404 when unknown,
otherwise a snapshot of the record. -/
def getBotStatus (s : GatewayState) (instance_id : InstanceId) :
    Except String BotStatusResponse :=
  match s.bot_manager.get_instance instance_id with
  | none => Except.error "Bot instance not found"
  | some inst =>
    Except.ok
      { instance_id := inst.instance_id
        status := inst.status
        started_at := inst.started_at
        completed_at := inst.completed_at
        error_message := inst.error_message }

/-- `DELETE /bot/{instance_id}` (`terminate_bot`): 404 when unknown,
otherwise set the status label to `"terminated"` (no signal reaches the
remote worker). -/
def terminateBot (s : GatewayState) (instance_id : InstanceId) (now : Nat) :
    Except String String × GatewayState :=
  match s.bot_manager.get_instance instance_id with
  | none => (Except.error "Bot instance not found", s)
  | some _ =>
    (Except.ok "termination requested",
     { s with bot_manager :=
         s.bot_manager.update_instance_status instance_id "terminated" none now })

/-- First half of `start_bot_async`, up to the `await`: mark the instance
`"running"` and suspend on the remote call. -/
def taskRunStep (s : GatewayState) (instance_id : InstanceId) (now : Nat) :
    GatewayState :=
  { s with
    bot_manager := s.bot_manager.update_instance_status instance_id "running" none now
    tasks := dictSet s.tasks instance_id TaskPhase.awaitingRemote }

/-- Second half of `start_bot_async`, applied to the registry once the
remote call has either returned a result or raised: map the result onto the
instance's status.  Total, so no exception can propagate out of the task. -/
def startBotAsyncFinish (m : BotManager) (instance_id : InstanceId)
    (remote : Except String RunResult) (now : Nat) : BotManager :=
  match remote with
  | Except.error e =>
    m.update_instance_status instance_id "failed"
      (some ("Error starting bot: " ++ e)) now
  | Except.ok result =>
    if result.status = "completed" then
      m.update_instance_status instance_id "completed" none now
    else
      m.update_instance_status instance_id "failed" (some result.message) now

/-- The remote call of a suspended task resolves (with a launcher result or
an exception) and the task finishes. -/
def taskFinishStep (s : GatewayState) (instance_id : InstanceId)
    (remote : Except String RunResult) (now : Nat) : GatewayState :=
  { s with
    bot_manager := startBotAsyncFinish s.bot_manager instance_id remote now
    tasks := dictSet s.tasks instance_id TaskPhase.done }

/-- A cleanup sweep (`cleanup_old_instances` is never scheduled by the
source, but it is part of the registry's surface). -/
def cleanupStep (s : GatewayState) (max_age_hours : Nat) (now : Nat) :
    GatewayState :=
  { s with bot_manager := s.bot_manager.cleanup_old_instances max_age_hours now }

/-- One atomic step of the gateway: an endpoint call or the resumption of a
background task at one of its suspension points. -/
inductive GStep : GatewayState → GatewayState → Prop
  | join (s : GatewayState) (request : JoinMeetingRequest) (now : Nat) :
      GStep s (joinMeeting s request now).2
  | taskRun (s : GatewayState) (id : InstanceId) (now : Nat) :
      dictGet s.tasks id = some TaskPhase.scheduled →
      GStep s (taskRunStep s id now)
  | taskFinish (s : GatewayState) (id : InstanceId)
      (remote : Except String RunResult) (now : Nat) :
      dictGet s.tasks id = some TaskPhase.awaitingRemote →
      GStep s (taskFinishStep s id remote now)
  | terminate (s : GatewayState) (id : InstanceId) (now : Nat) :
      GStep s (terminateBot s id now).2
  | cleanup (s : GatewayState) (max_age_hours : Nat) (now : Nat) :
      GStep s (cleanupStep s max_age_hours now)

/-- Gateway states reachable from process start through endpoint calls and
background-task resumptions. -/
inductive Reachable : GatewayState → Prop
  | init : Reachable gatewayInit
  | step {s s' : GatewayState} : Reachable s → GStep s s' → Reachable s'

/-! ## Invariant predicates -/

/-- Every record whose status is terminal carries a completion timestamp. -/
def TerminalStamped (m : BotManager) : Prop :=
  ∀ p ∈ m.instances,
    (p.2.status = "completed" ∨ p.2.status = "failed") →
    p.2.completed_at.isSome = true

/-- Every record is keyed by its own `instance_id`. -/
def WellKeyed (m : BotManager) : Prop :=
  ∀ p ∈ m.instances, p.2.instance_id = p.1

/-- Every id ever returned by `join_meeting` is below the uuid counter. -/
def IssuedBounded (s : GatewayState) : Prop :=
  ∀ id ∈ s.issued, id < s.nextUuid

/-! ## Concrete example data -/

/-- A minimal valid join request. -/
def exampleRequest : JoinMeetingRequest :=
  { meeting_url := "https://example.com/m/1" }

/-- A join request whose `additional_params` collides with the fixed key
`bot_name`. -/
def c1Request : JoinMeetingRequest :=
  { meeting_url := "https://example.com/m/1"
    bot_name := "Y"
    additional_params := [("bot_name", Value.str "X")] }

/-- Environment in which the external process is immediately healthy and the
join call succeeds. -/
def envHealthy : RunEnv :=
  { health := fun _ => HealthOutcome.status 200
    joinStatus := 200
    joinBody := ""
    stdoutTail := "done"
    stderrTail := none }

/-- Environment in which every health attempt raises a request error. -/
def envAllError : RunEnv :=
  { health := fun _ => HealthOutcome.error
    joinStatus := 200
    joinBody := ""
    stdoutTail := ""
    stderrTail := none }

/-- Gateway state after one join at time 1. -/
def c2s1 : GatewayState := (joinMeeting gatewayInit exampleRequest 1).2

/-- …after the background task marked the instance running at time 2. -/
def c2s2 : GatewayState := taskRunStep c2s1 0 2

/-- …after the remote call returned the launcher's success result at 3. -/
def c2s3 : GatewayState :=
  taskFinishStep c2s2 0 (Except.ok (run_meeting_bot envHealthy)) 3

/-- …after the terminate endpoint overwrote the completed instance at 4. -/
def c2s4 : GatewayState := (terminateBot c2s3 0 4).2

/-- The record stored under id 0 in `c2s3`. -/
def c2Inst : BotInstance :=
  { instance_id := 0
    meeting_params := prepareMeetingParams exampleRequest
    status := "completed"
    started_at := 1
    completed_at := some 3 }

/-- Registry with one record whose `completed_at` was stamped by an earlier
terminal update. -/
def c3Registry : BotManager :=
  ((botManagerInit.create_instance [] 0 0).1.update_instance_status 0
    "completed" none 5)

/-- The record stored under id 0 in `c3Registry`. -/
def c3Inst : BotInstance :=
  { instance_id := 0
    meeting_params := []
    status := "completed"
    started_at := 0
    completed_at := some 5 }

/-- An old terminal record, eligible for cleanup. -/
def c4OldDone : BotInstance :=
  { instance_id := 0
    meeting_params := []
    status := "completed"
    started_at := 0
    completed_at := some 10 }

/-- An equally old running record, never eligible for cleanup. -/
def c4Running : BotInstance :=
  { instance_id := 1
    meeting_params := []
    status := "running"
    started_at := 0 }

/-- Registry holding one removable and one non-removable record. -/
def c4Registry : BotManager :=
  { instances := [(0, c4OldDone), (1, c4Running)] }

/-- Registry with a single freshly created record under id 0. -/
def c8Registry : BotManager := (botManagerInit.create_instance [] 0 0).1

/-- The record stored under id 0 in `c8Registry`. -/
def c8Inst : BotInstance :=
  { instance_id := 0
    meeting_params := []
    status := "starting"
    started_at := 0 }

/-- Gateway state after one join of `exampleRequest` at time 5. -/
def c10State : GatewayState := (joinMeeting gatewayInit exampleRequest 5).2

/-- The single registry entry of `c10State`. -/
def c10Pair : InstanceId × BotInstance :=
  (0, { instance_id := 0
        meeting_params := prepareMeetingParams exampleRequest
        status := "starting"
        started_at := 5 })

/-! ## Dictionary lemmas -/

theorem dictGet_set_self {κ α : Type} [DecidableEq κ]
    (d : List (κ × α)) (k : κ) (v : α) :
    dictGet (dictSet d k v) k = some v := by
  induction d with
  | nil => simp [dictSet, dictGet]
  | cons p rest ih =>
    obtain ⟨k', v'⟩ := p
    by_cases h : k' = k
    · simp [dictSet, dictGet, h]
    · simp [dictSet, dictGet, h, ih]

theorem dictGet_set_ne {κ α : Type} [DecidableEq κ]
    (d : List (κ × α)) (k k' : κ) (v : α) (h : k' ≠ k) :
    dictGet (dictSet d k v) k' = dictGet d k' := by
  induction d with
  | nil => simp [dictSet, dictGet, Ne.symm h]
  | cons p rest ih =>
    obtain ⟨k₀, v₀⟩ := p
    by_cases h0 : k₀ = k
    · subst h0
      simp [dictSet, dictGet, Ne.symm h]
    · simp only [dictSet, if_neg h0]
      by_cases h1 : k₀ = k'
      · simp [dictGet, h1]
      · simp [dictGet, h1, ih]

theorem mem_dictSet {κ α : Type} [DecidableEq κ]
    (d : List (κ × α)) (k : κ) (v : α) (p : κ × α)
    (hp : p ∈ dictSet d k v) : p = (k, v) ∨ p ∈ d := by
  induction d with
  | nil => simpa [dictSet] using hp
  | cons q rest ih =>
    obtain ⟨k₀, v₀⟩ := q
    by_cases h0 : k₀ = k
    · simp only [dictSet, if_pos h0, List.mem_cons] at hp
      rcases hp with h | h
      · exact Or.inl h
      · exact Or.inr (List.mem_cons_of_mem _ h)
    · simp only [dictSet, if_neg h0, List.mem_cons] at hp
      rcases hp with h | h
      · exact Or.inr (by simp [h])
      · rcases ih h with h' | h'
        · exact Or.inl h'
        · exact Or.inr (List.mem_cons_of_mem _ h')

theorem dictGet_mem {κ α : Type} [DecidableEq κ]
    (d : List (κ × α)) (k : κ) (v : α)
    (h : dictGet d k = some v) : (k, v) ∈ d := by
  induction d with
  | nil => simp [dictGet] at h
  | cons q rest ih =>
    obtain ⟨k₀, v₀⟩ := q
    by_cases h0 : k₀ = k
    · subst h0
      simp [dictGet] at h
      subst h
      exact List.mem_cons_self _ _
    · simp only [dictGet, if_neg h0] at h
      exact List.mem_cons_of_mem _ (ih h)

theorem dictGet_eq_none_of_not_mem_keys {κ α : Type} [DecidableEq κ]
    (d : List (κ × α)) (k : κ) (h : k ∉ d.map Prod.fst) :
    dictGet d k = none := by
  induction d with
  | nil => simp [dictGet]
  | cons q rest ih =>
    obtain ⟨k₀, v₀⟩ := q
    simp only [List.map_cons, List.mem_cons, not_or] at h
    have hk : k₀ ≠ k := fun hh => h.1 hh.symm
    simp [dictGet, hk, ih h.2]

/-- Characterisation of the Python merge `{**d, **extra}` for a dict `extra`
(whose keys, being dict keys, are pairwise distinct): the `extra` binding wins
when present, and `d`'s binding is kept otherwise. -/
theorem dictGet_merge {κ α : Type} [DecidableEq κ]
    (d extra : List (κ × α)) (k : κ)
    (hnodup : (extra.map Prod.fst).Nodup) :
    dictGet (dictMerge d extra) k =
      ((dictGet extra k).rec (dictGet d k) (fun v => some v) : Option α) := by
  induction extra generalizing d with
  | nil => simp [dictMerge, dictGet]
  | cons p rest ih =>
    obtain ⟨k₀, v₀⟩ := p
    simp only [List.map_cons, List.nodup_cons] at hnodup
    have hrec : dictMerge d ((k₀, v₀) :: rest) =
        dictMerge (dictSet d k₀ v₀) rest := rfl
    rw [hrec, ih (dictSet d k₀ v₀) hnodup.2]
    by_cases h0 : k₀ = k
    · subst h0
      have : dictGet rest k₀ = none :=
        dictGet_eq_none_of_not_mem_keys rest k₀ hnodup.1
      simp [dictGet, this, dictGet_set_self]
    · have hne : k ≠ k₀ := fun hh => h0 hh.symm
      simp [dictGet, h0, dictGet_set_ne d k₀ k v₀ hne]

/-! ## Registry lemmas -/

theorem get_update_instance_status_self (m : BotManager) (id : InstanceId)
    (status : String) (err : Option String) (now : Nat) :
    (m.update_instance_status id status err now).get_instance id =
      (m.get_instance id).map (fun inst => updatedInstance inst status err now) := by
  unfold BotManager.update_instance_status BotManager.get_instance
  cases h : dictGet m.instances id with
  | none => simp [h]
  | some inst => simp [h, dictGet_set_self]

theorem get_update_instance_status_ne (m : BotManager) (id id' : InstanceId)
    (status : String) (err : Option String) (now : Nat) (hne : id' ≠ id) :
    (m.update_instance_status id status err now).get_instance id' =
      m.get_instance id' := by
  unfold BotManager.update_instance_status BotManager.get_instance
  cases h : dictGet m.instances id with
  | none => simp
  | some inst => simp [dictGet_set_ne _ _ _ _ hne]

theorem mem_update_instance_status (m : BotManager) (id : InstanceId)
    (status : String) (err : Option String) (now : Nat) (p : InstanceId × BotInstance)
    (hp : p ∈ (m.update_instance_status id status err now).instances) :
    (∃ inst, dictGet m.instances id = some inst ∧
        p = (id, updatedInstance inst status err now)) ∨
    p ∈ m.instances := by
  unfold BotManager.update_instance_status at hp
  cases h : dictGet m.instances id with
  | none => rw [h] at hp; exact Or.inr hp
  | some inst =>
    rw [h] at hp
    simp only at hp
    rcases mem_dictSet _ _ _ _ hp with h' | h'
    · exact Or.inl ⟨inst, rfl, h'⟩
    · exact Or.inr h'

theorem foldl_dictDelete {κ α : Type} [DecidableEq κ]
    (R : List κ) (l : List (κ × α)) :
    R.foldl (fun acc id => dictDelete acc id) l =
      l.filter (fun p => decide (p.1 ∉ R)) := by
  induction R generalizing l with
  | nil => simp
  | cons r R ih =>
    rw [List.foldl_cons, ih]
    unfold dictDelete
    rw [List.filter_filter]
    apply List.filter_congr
    intro p _
    by_cases h1 : p.1 = r
    · simp [h1]
    · by_cases h2 : p.1 ∈ R <;> simp [h1, h2]

/-! ## Poll-loop lemmas -/

theorem attemptCount_healthPollTrace_le (health : Nat → HealthOutcome)
    (r i : Nat) : attemptCount (healthPollTrace health r i).1 ≤ r := by
  induction r generalizing i with
  | zero => simp [healthPollTrace, attemptCount]
  | succ r ih =>
    unfold healthPollTrace
    cases h : health i with
    | error =>
      have := ih (i + 1)
      simp [attemptCount, List.countP_cons] at *
      omega
    | status code =>
      by_cases h200 : (code == 200) = true
      · simp [h200, attemptCount, List.countP_cons]
      · have := ih (i + 1)
        simp [h200, attemptCount, List.countP_cons] at *
        omega

theorem healthPollTrace_fail (health : Nat → HealthOutcome) (r i : Nat)
    (hfail : ∀ j, i ≤ j → j < i + r → isHealthy (health j) = false) :
    (healthPollTrace health r i).2 = false := by
  induction r generalizing i with
  | zero => rfl
  | succ r ih =>
    have hi : isHealthy (health i) = false := hfail i le_rfl (by omega)
    unfold healthPollTrace
    cases h : health i with
    | error =>
      exact ih (i + 1) (fun j h1 h2 => hfail j (by omega) (by omega))
    | status code =>
      rw [h] at hi
      simp only [isHealthy] at hi
      simp only [hi, Bool.false_eq_true, if_false]
      exact ih (i + 1) (fun j h1 h2 => hfail j (by omega) (by omega))

theorem healthPollTrace_head_attempt (health : Nat → HealthOutcome)
    (r i : Nat) :
    (healthPollTrace health r i).1 = [] ∨
    ∃ o rest, (healthPollTrace health r i).1 = PollEvent.attempt o :: rest := by
  cases r with
  | zero => exact Or.inl rfl
  | succ r =>
    right
    unfold healthPollTrace
    cases h : health i with
    | error => exact ⟨HealthOutcome.error, _, rfl⟩
    | status code =>
      by_cases h200 : (code == 200) = true
      · refine ⟨HealthOutcome.status code, [], ?_⟩
        simp [h200]
      · refine ⟨HealthOutcome.status code, (healthPollTrace health r (i + 1)).1, ?_⟩
        simp [h200]

theorem healthPollTrace_wellSlept (health : Nat → HealthOutcome) (r i : Nat) :
    wellSlept (healthPollTrace health r i).1 = true := by
  induction r generalizing i with
  | zero => rfl
  | succ r ih =>
    unfold healthPollTrace
    cases h : health i with
    | error =>
      simp only [wellSlept, beq_self_eq_true, Bool.true_and]
      exact ih (i + 1)
    | status code =>
      by_cases h200 : (code == 200) = true
      · simp [h200, wellSlept]
      · simp only [h200, Bool.false_eq_true, if_false]
        rcases healthPollTrace_head_attempt health r (i + 1) with hnil | ⟨o, rest, heq⟩
        · rw [hnil]
          rfl
        · rw [heq]
          simp only [wellSlept]
          rw [← heq]
          exact ih (i + 1)

/-! ## Reachability invariant lemmas -/

theorem joinMeeting_state (s : GatewayState) (request : JoinMeetingRequest)
    (now : Nat) :
    (joinMeeting s request now).2 =
      { bot_manager :=
          (s.bot_manager.create_instance (prepareMeetingParams request)
            s.nextUuid now).1
        nextUuid := s.nextUuid + 1
        issued := s.issued ++ [s.nextUuid]
        tasks := dictSet s.tasks s.nextUuid TaskPhase.scheduled } := rfl

theorem terminateBot_state (s : GatewayState) (id : InstanceId) (now : Nat) :
    (terminateBot s id now).2 = s ∨
    (terminateBot s id now).2 =
      { s with bot_manager :=
          s.bot_manager.update_instance_status id "terminated" none now } := by
  unfold terminateBot
  cases s.bot_manager.get_instance id with
  | none => exact Or.inl rfl
  | some inst => exact Or.inr rfl

theorem terminalStamped_create (m : BotManager) (params : Params)
    (id : InstanceId) (now : Nat) (hm : TerminalStamped m) :
    TerminalStamped (m.create_instance params id now).1 := by
  intro p hp hstat
  unfold BotManager.create_instance at hp
  simp only at hp
  rcases mem_dictSet _ _ _ _ hp with hpe | hmem
  · subst hpe
    have h' : ("starting" : String) = "completed" ∨
        ("starting" : String) = "failed" := hstat
    exact absurd h' (by decide)
  · exact hm p hmem hstat

theorem terminalStamped_update (m : BotManager) (id : InstanceId)
    (status : String) (err : Option String) (now : Nat)
    (hm : TerminalStamped m) :
    TerminalStamped (m.update_instance_status id status err now) := by
  intro p hp hstat
  rcases mem_update_instance_status m id status err now p hp with
    ⟨inst, hget, hpe⟩ | hmem
  · subst hpe
    simp only [updatedInstance] at hstat ⊢
    rcases hstat with h | h <;> simp [h]
  · exact hm p hmem hstat

theorem terminalStamped_cleanup (m : BotManager) (max_age_hours now : Nat)
    (hm : TerminalStamped m) :
    TerminalStamped (m.cleanup_old_instances max_age_hours now) := by
  intro p hp hstat
  unfold BotManager.cleanup_old_instances at hp
  simp only at hp
  rw [foldl_dictDelete] at hp
  exact hm p (List.mem_filter.1 hp).1 hstat

theorem terminalStamped_startBotAsyncFinish (m : BotManager)
    (id : InstanceId) (remote : Except String RunResult) (now : Nat)
    (hm : TerminalStamped m) :
    TerminalStamped (startBotAsyncFinish m id remote now) := by
  cases remote with
  | error e => exact terminalStamped_update _ _ _ _ _ hm
  | ok result =>
    show TerminalStamped (if result.status = "completed" then _ else _)
    by_cases hc : result.status = "completed"
    · rw [if_pos hc]; exact terminalStamped_update _ _ _ _ _ hm
    · rw [if_neg hc]; exact terminalStamped_update _ _ _ _ _ hm

theorem reachable_terminalStamped (s : GatewayState) (hs : Reachable s) :
    TerminalStamped s.bot_manager := by
  induction hs with
  | init => intro p hp _; simp [gatewayInit, botManagerInit] at hp
  | @step s s' hr hstep ih =>
    cases hstep with
    | join request now =>
      rw [joinMeeting_state]
      exact terminalStamped_create _ _ _ _ ih
    | taskRun id now htask =>
      exact terminalStamped_update _ _ _ _ _ ih
    | taskFinish id remote now htask =>
      exact terminalStamped_startBotAsyncFinish _ _ _ _ ih
    | terminate id now =>
      rcases terminateBot_state s id now with h | h <;> rw [h]
      · exact ih
      · exact terminalStamped_update _ _ _ _ _ ih
    | cleanup max_age_hours now =>
      exact terminalStamped_cleanup _ _ _ ih

theorem wellKeyed_create (m : BotManager) (params : Params)
    (id : InstanceId) (now : Nat) (hm : WellKeyed m) :
    WellKeyed (m.create_instance params id now).1 := by
  intro p hp
  unfold BotManager.create_instance at hp
  simp only at hp
  rcases mem_dictSet _ _ _ _ hp with hpe | hmem
  · subst hpe; rfl
  · exact hm p hmem

theorem wellKeyed_update (m : BotManager) (id : InstanceId) (status : String)
    (err : Option String) (now : Nat) (hm : WellKeyed m) :
    WellKeyed (m.update_instance_status id status err now) := by
  intro p hp
  rcases mem_update_instance_status m id status err now p hp with
    ⟨inst, hget, hpe⟩ | hmem
  · subst hpe
    have hkey := hm (id, inst) (dictGet_mem _ _ _ hget)
    simpa [updatedInstance] using hkey
  · exact hm p hmem

theorem wellKeyed_cleanup (m : BotManager) (max_age_hours now : Nat)
    (hm : WellKeyed m) :
    WellKeyed (m.cleanup_old_instances max_age_hours now) := by
  intro p hp
  unfold BotManager.cleanup_old_instances at hp
  simp only at hp
  rw [foldl_dictDelete] at hp
  exact hm p (List.mem_filter.1 hp).1

theorem wellKeyed_startBotAsyncFinish (m : BotManager) (id : InstanceId)
    (remote : Except String RunResult) (now : Nat) (hm : WellKeyed m) :
    WellKeyed (startBotAsyncFinish m id remote now) := by
  cases remote with
  | error e => exact wellKeyed_update _ _ _ _ _ hm
  | ok result =>
    show WellKeyed (if result.status = "completed" then _ else _)
    by_cases hc : result.status = "completed"
    · rw [if_pos hc]; exact wellKeyed_update _ _ _ _ _ hm
    · rw [if_neg hc]; exact wellKeyed_update _ _ _ _ _ hm

theorem reachable_wellKeyed (s : GatewayState) (hs : Reachable s) :
    WellKeyed s.bot_manager := by
  induction hs with
  | init => intro p hp; simp [gatewayInit, botManagerInit] at hp
  | @step s s' hr hstep ih =>
    cases hstep with
    | join request now =>
      rw [joinMeeting_state]
      exact wellKeyed_create _ _ _ _ ih
    | taskRun id now htask =>
      exact wellKeyed_update _ _ _ _ _ ih
    | taskFinish id remote now htask =>
      exact wellKeyed_startBotAsyncFinish _ _ _ _ ih
    | terminate id now =>
      rcases terminateBot_state s id now with h | h <;> rw [h]
      · exact ih
      · exact wellKeyed_update _ _ _ _ _ ih
    | cleanup max_age_hours now =>
      exact wellKeyed_cleanup _ _ _ ih

theorem reachable_issuedBounded (s : GatewayState) (hs : Reachable s) :
    IssuedBounded s := by
  induction hs with
  | init => intro id hid; simp [gatewayInit] at hid
  | @step s s' hr hstep ih =>
    cases hstep with
    | join request now =>
      intro id hid
      rw [joinMeeting_state] at hid ⊢
      simp only [List.mem_append, List.mem_singleton] at hid
      rcases hid with h | h
      · exact Nat.lt_succ_of_lt (ih id h)
      · subst h; exact Nat.lt_succ_self _
    | taskRun id now htask => exact ih
    | taskFinish id remote now htask => exact ih
    | terminate id now =>
      rcases terminateBot_state s id now with h | h <;> rw [h] <;> exact ih
    | cleanup max_age_hours now => exact ih


/-! ## Auxiliary facts for the claim theorems -/

theorem string_append_ne_empty (s t : String) (hs : s ≠ "") : s ++ t ≠ "" := by
  intro h
  apply hs
  rw [String.ext_iff] at h ⊢
  simp only [String.data_append] at h
  rcases List.append_eq_nil.1 h with ⟨h1, _⟩
  simpa using h1

theorem run_meeting_bot_cases (env : RunEnv) :
    run_meeting_bot env =
      { status := "error"
        message := "Meeting bot failed: Failed to start meeting bot application" } ∨
    run_meeting_bot env =
      { status := "error"
        message := "Meeting bot failed: Failed to join meeting: " ++ env.joinBody } ∨
    run_meeting_bot env =
      { status := "completed"
        message := "Meeting bot finished successfully"
        stdout := some env.stdoutTail
        stderr := env.stderrTail } := by
  unfold run_meeting_bot
  by_cases h1 : (healthPollTrace env.health 30 0).2
  · by_cases h2 : env.joinStatus = 200
    · right; right; simp [h1, h2]
    · right; left; simp [h1, h2]
  · left; simp [h1]

theorem run_meeting_bot_message_ne_empty (env : RunEnv)
    (h : (run_meeting_bot env).status ≠ "completed") :
    (run_meeting_bot env).message ≠ "" := by
  rcases run_meeting_bot_cases env with hc | hc | hc
  · rw [hc]; decide
  · rw [hc]
    exact string_append_ne_empty _ _ (by decide)
  · rw [hc] at h
    simp at h

theorem reach_c2s3 : Reachable c2s3 :=
  Reachable.step
    (Reachable.step
      (Reachable.step Reachable.init (GStep.join gatewayInit exampleRequest 1))
      (GStep.taskRun c2s1 0 2 rfl))
    (GStep.taskFinish c2s2 0 (Except.ok (run_meeting_bot envHealthy)) 3 rfl)

/-! ## Claim theorems -/

/-- C1 (counterexample): the claim says the merged parameter map keeps the
top-level value of a fixed key also present in `additional_params`.  For a
request with top-level `bot_name = "Y"` and `additional_params` carrying
`bot_name = "X"`, the merged map holds `"X"`: the `**additional_params`
entry, written last in the dict literal, wins. -/
theorem join_params_fixed_key_overridden_cex :
    dictGet (prepareMeetingParams c1Request) "bot_name" =
      some (Value.str "X") ∧
    c1Request.bot_name = "Y" :=
  ⟨rfl, rfl⟩

/-- C1 (amended): for every join request (whose `additional_params`, being a
dict, has pairwise-distinct keys), a key bound in `additional_params` keeps
its `additional_params` value in the merged map — additional params override
the fixed keys, not the other way round. -/
theorem join_params_additional_params_override (request : JoinMeetingRequest)
    (hnodup : (request.additional_params.map Prod.fst).Nodup)
    (k : String) (v : Value)
    (hv : dictGet request.additional_params k = some v) :
    dictGet (prepareMeetingParams request) k = some v := by
  unfold prepareMeetingParams
  rw [dictGet_merge _ _ _ hnodup, hv]

theorem join_params_additional_params_override_witness :
    dictGet (prepareMeetingParams c1Request) "bot_name" =
      some (Value.str "X") :=
  join_params_additional_params_override c1Request (by decide) "bot_name"
    (Value.str "X") rfl

/-- C2 (counterexample): a reachable gateway state violates the claimed iff
invariant: after a join, a successful launch, and a terminate, the record has
status `"terminated"` while `completed_at` is still set (the terminate
overwrite never clears it). -/
theorem registry_completed_at_iff_terminal_cex :
    Reachable c2s4 ∧
    (c2s4.bot_manager.get_instance 0).map
        (fun i => (i.status, i.completed_at)) =
      some ("terminated", some 3) :=
  ⟨Reachable.step reach_c2s3 (GStep.terminate c2s3 0 4), rfl⟩

/-- C2 (amended): in every reachable registry state the forward direction
holds — a record with status `completed` or `failed` always has
`completed_at` set; the reverse direction fails after the terminate endpoint
overwrites a terminal instance (see the counterexample). -/
theorem reachable_terminal_implies_completed_at (s : GatewayState)
    (hs : Reachable s) (id : InstanceId) (inst : BotInstance)
    (hget : s.bot_manager.get_instance id = some inst)
    (hterm : inst.status = "completed" ∨ inst.status = "failed") :
    inst.completed_at.isSome = true :=
  reachable_terminalStamped s hs (id, inst) (dictGet_mem _ _ _ hget) hterm

theorem reachable_terminal_implies_completed_at_witness :
    c2Inst.completed_at.isSome = true :=
  reachable_terminal_implies_completed_at c2s3 reach_c2s3 0 c2Inst rfl
    (Or.inl rfl)

/-- C3 (counterexample): the claim says a non-terminal status update leaves
`completed_at` unset afterwards.  On a record whose `completed_at` was
stamped by an earlier terminal update, updating to `"running"` leaves
`completed_at` still set: the update never clears it. -/
theorem update_status_nonterminal_completed_at_cex :
    (c3Registry.get_instance 0).map (fun i => i.completed_at) =
      some (some 5) ∧
    ((c3Registry.update_instance_status 0 "running" none 9).get_instance 0).map
        (fun i => (i.status, i.completed_at)) =
      some ("running", some 5) :=
  ⟨rfl, rfl⟩

/-- C3 (amended): updating a known id to `completed` or `failed` sets
`completed_at` to the current time; any other status leaves `completed_at`
unchanged (so it stays set if an earlier terminal update set it). -/
theorem update_status_completed_at_behavior (m : BotManager)
    (id : InstanceId) (status : String) (err : Option String) (now : Nat)
    (inst : BotInstance) (h : m.get_instance id = some inst) :
    ((m.update_instance_status id status err now).get_instance id).map
        (fun i => i.completed_at) =
      some (if status = "completed" ∨ status = "failed" then some now
            else inst.completed_at) := by
  rw [get_update_instance_status_self, h]
  simp [updatedInstance]

theorem update_status_completed_at_behavior_witness :
    ((c3Registry.update_instance_status 0 "failed" none 9).get_instance 0).map
        (fun i => i.completed_at) =
      some (if ("failed" : String) = "completed" ∨ ("failed" : String) = "failed"
            then some 9 else c3Inst.completed_at) :=
  update_status_completed_at_behavior c3Registry 0 "failed" none 9 c3Inst rfl

/-- C4: for a registry whose keys are pairwise distinct (as Python dict keys
are), the cleanup sweep removes exactly the records that are old (started
strictly before `now - max_age_hours * 3600`) and terminal
(`completed`/`failed`); every other record — including arbitrarily old
`starting`/`running`/`terminated` ones — survives unchanged and in order. -/
theorem cleanup_removes_exactly_old_terminal (m : BotManager) (max_age_hours now : Nat)
    (hnodup : (m.instances.map Prod.fst).Nodup) :
    (m.cleanup_old_instances max_age_hours now).instances =
      m.instances.filter (fun p => !(isRemovable p.2 max_age_hours now)) := by
  unfold BotManager.cleanup_old_instances
  simp only
  rw [foldl_dictDelete]
  apply List.filter_congr
  intro p hp
  by_cases hrem : isRemovable p.2 max_age_hours now
  · have hmem : p.1 ∈
        (m.instances.filter (fun q => isRemovable q.2 max_age_hours now)).map
          (fun q => q.1) :=
      List.mem_map_of_mem _ (List.mem_filter.2 ⟨hp, hrem⟩)
    simp [hmem, hrem]
  · have hnotmem : p.1 ∉
        (m.instances.filter (fun q => isRemovable q.2 max_age_hours now)).map
          (fun q => q.1) := by
      intro hmem
      rcases List.mem_map.1 hmem with ⟨q, hq, hq1⟩
      have hq' := List.mem_filter.1 hq
      have : q = p :=
        List.inj_on_of_nodup_map hnodup hq'.1 hp hq1
      rw [this] at hq'
      exact hrem hq'.2
    simp [hnotmem, hrem]

theorem cleanup_removes_exactly_old_terminal_witness :
    (c4Registry.cleanup_old_instances 1 7200).instances = [(1, c4Running)] := by
  rw [cleanup_removes_exactly_old_terminal c4Registry 1 7200 (by decide)]
  rfl

/-- C5: updating an unknown id is a silent no-op — the registry is returned
completely unchanged (no record is created or modified), and the operation
is total, so no error reaches the caller. -/
theorem update_status_unknown_id_noop (m : BotManager) (id : InstanceId)
    (status : String) (err : Option String) (now : Nat)
    (h : m.get_instance id = none) :
    m.update_instance_status id status err now = m := by
  unfold BotManager.update_instance_status
  unfold BotManager.get_instance at h
  rw [h]

theorem update_status_unknown_id_noop_witness :
    botManagerInit.update_instance_status 3 "completed" (some "x") 7 =
      botManagerInit :=
  update_status_unknown_id_noop botManagerInit 3 "completed" (some "x") 7 rfl

/-- C6: the remote launcher's health-poll loop makes at most 30 attempts,
and when no attempt within that budget returns a success (status 200), the
call returns the "Failed to start meeting bot application" error result —
the outer `except` converts the raise into a result, so nothing reaches the
platform and the loop never polls forever. -/
theorem launcher_health_poll_budget (env : RunEnv) :
    attemptCount (healthPollTrace env.health 30 0).1 ≤ 30 ∧
    ((∀ i, i < 30 → isHealthy (env.health i) = false) →
      run_meeting_bot env =
        { status := "error"
          message := "Meeting bot failed: Failed to start meeting bot application" }) := by
  constructor
  · exact attemptCount_healthPollTrace_le env.health 30 0
  · intro hfail
    have hsnd : (healthPollTrace env.health 30 0).2 = false :=
      healthPollTrace_fail env.health 30 0 (fun j h1 h2 => hfail j (by omega))
    unfold run_meeting_bot
    simp [hsnd]

theorem launcher_health_poll_budget_witness :
    attemptCount (healthPollTrace envAllError.health 30 0).1 ≤ 30 ∧
    run_meeting_bot envAllError =
      { status := "error"
        message := "Meeting bot failed: Failed to start meeting bot application" } :=
  ⟨(launcher_health_poll_budget envAllError).1,
   (launcher_health_poll_budget envAllError).2 (fun _ _ => rfl)⟩

/-- C7 (counterexample): the claim says every unsuccessful attempt is
followed by a 1-second sleep.  When every attempt returns status 500 (a
response, so no `RequestException` is raised), the loop makes all 30 failed
attempts back-to-back with zero sleeps: the first two trace events are two
consecutive failed attempts with nothing between them. -/
theorem poll_nonsuccess_attempt_no_sleep_cex :
    attemptCount (healthPollTrace (fun _ => HealthOutcome.status 500) 30 0).1 = 30 ∧
    sleepCount (healthPollTrace (fun _ => HealthOutcome.status 500) 30 0).1 = 0 ∧
    (healthPollTrace (fun _ => HealthOutcome.status 500) 30 0).1.take 2 =
      [PollEvent.attempt (HealthOutcome.status 500),
       PollEvent.attempt (HealthOutcome.status 500)] :=
  ⟨rfl, rfl, rfl⟩

/-- C7 (amended): in the launcher's 30-attempt poll trace, a 1-second sleep
occurs exactly once after each attempt whose request errored, and nowhere
else: an attempt that returned a non-success status code is followed
immediately by the next attempt (or the end of the loop) with no sleep. -/
theorem poll_sleep_only_after_request_error (env : RunEnv) :
    wellSlept (healthPollTrace env.health 30 0).1 = true :=
  healthPollTrace_wellSlept env.health 30 0

theorem poll_sleep_only_after_request_error_witness :
    wellSlept (healthPollTrace envAllError.health 30 0).1 = true :=
  poll_sleep_only_after_request_error envAllError

/-- C8: once the remote call of the background task resolves, the gateway
maps its outcome onto the known instance: a launcher result with status
`"completed"` sets the instance to `completed` (leaving `error_message`
alone), any other launcher result sets it to `failed` carrying the result's
message, and an exception raised while awaiting sets it to `failed` with an
"Error starting bot" message; `startBotAsyncFinish` is total, so no
exception propagates. -/
theorem gateway_maps_launcher_result (m : BotManager) (id : InstanceId)
    (inst : BotInstance) (now : Nat) (h : m.get_instance id = some inst) :
    (∀ env : RunEnv,
      ((startBotAsyncFinish m id (Except.ok (run_meeting_bot env)) now).get_instance id).map
          (fun i => (i.status, i.error_message)) =
        (if (run_meeting_bot env).status = "completed" then
           some ("completed", inst.error_message)
         else some ("failed", some (run_meeting_bot env).message))) ∧
    (∀ e : String,
      ((startBotAsyncFinish m id (Except.error e) now).get_instance id).map
          (fun i => (i.status, i.error_message)) =
        some ("failed", some ("Error starting bot: " ++ e))) := by
  constructor
  · intro env
    simp only [startBotAsyncFinish]
    by_cases hc : (run_meeting_bot env).status = "completed"
    · rw [if_pos hc, if_pos hc, get_update_instance_status_self, h]
      simp [updatedInstance]
    · rw [if_neg hc, if_neg hc, get_update_instance_status_self, h]
      have hmsg := run_meeting_bot_message_ne_empty env hc
      simp [updatedInstance, hmsg]
  · intro e
    simp only [startBotAsyncFinish]
    rw [get_update_instance_status_self, h]
    have hmsg : ("Error starting bot: " ++ e : String) ≠ "" :=
      string_append_ne_empty _ _ (by decide)
    simp [updatedInstance, hmsg]

theorem gateway_maps_launcher_result_witness :
    ((startBotAsyncFinish c8Registry 0 (Except.ok (run_meeting_bot envAllError)) 7).get_instance 0).map
        (fun i => (i.status, i.error_message)) =
      (if (run_meeting_bot envAllError).status = "completed" then
         some ("completed", c8Inst.error_message)
       else some ("failed", some (run_meeting_bot envAllError).message)) ∧
    ((startBotAsyncFinish c8Registry 0 (Except.error "boom") 7).get_instance 0).map
        (fun i => (i.status, i.error_message)) =
      some ("failed", some ("Error starting bot: " ++ "boom")) :=
  ⟨(gateway_maps_launcher_result c8Registry 0 c8Inst 7 rfl).1 envAllError,
   (gateway_maps_launcher_result c8Registry 0 c8Inst 7 rfl).2 "boom"⟩

/-- C9: from any reachable gateway state, a join request returns an instance
id never returned before (the uuid supply is fresh by construction, matching
the spec's collision-free assumption), the response carries status
`"starting"`, and an immediate status lookup on the new state succeeds,
reporting status `"starting"` with no completion timestamp and no error
message. -/
theorem join_returns_fresh_starting_instance (s : GatewayState)
    (hs : Reachable s) (request : JoinMeetingRequest) (now : Nat) :
    (joinMeeting s request now).1.instance_id ∉ s.issued ∧
    (joinMeeting s request now).1.status = "starting" ∧
    getBotStatus (joinMeeting s request now).2
        (joinMeeting s request now).1.instance_id =
      Except.ok
        { instance_id := (joinMeeting s request now).1.instance_id
          status := "starting"
          started_at := now } := by
  have hid : (joinMeeting s request now).1.instance_id = s.nextUuid := rfl
  refine ⟨?_, rfl, ?_⟩
  · intro hmem
    have hlt := reachable_issuedBounded s hs _ hmem
    rw [hid] at hlt
    exact lt_irrefl _ hlt
  · rw [hid, joinMeeting_state]
    unfold getBotStatus BotManager.get_instance BotManager.create_instance
    simp only
    rw [dictGet_set_self]

theorem join_returns_fresh_starting_instance_witness :
    (joinMeeting gatewayInit exampleRequest 5).1.instance_id ∉
      gatewayInit.issued ∧
    (joinMeeting gatewayInit exampleRequest 5).1.status = "starting" ∧
    getBotStatus (joinMeeting gatewayInit exampleRequest 5).2
        (joinMeeting gatewayInit exampleRequest 5).1.instance_id =
      Except.ok
        { instance_id := (joinMeeting gatewayInit exampleRequest 5).1.instance_id
          status := "starting"
          started_at := 5 } :=
  join_returns_fresh_starting_instance gatewayInit Reachable.init
    exampleRequest 5

/-- C10: in every reachable gateway state, every record returned by
`list_instances` is keyed by its own `instance_id`: create establishes the
property and status updates, terminates, and cleanup sweeps preserve it. -/
theorem registry_records_keyed_by_instance_id (s : GatewayState)
    (hs : Reachable s) :
    ∀ p ∈ s.bot_manager.list_instances, p.2.instance_id = p.1 :=
  fun p hp => reachable_wellKeyed s hs p hp

theorem registry_records_keyed_by_instance_id_witness :
    c10Pair.2.instance_id = c10Pair.1 :=
  registry_records_keyed_by_instance_id c10State
    (Reachable.step Reachable.init (GStep.join gatewayInit exampleRequest 5))
    c10Pair (by decide)

end MeetingBot
